import Mathlib

/-!
Shallow embedding of the `thermometer-film` server:
`server/process/development.py` (calibration tables and the piecewise-linear
development-time evaluator), `server/web.py` (the measurement tick of
`_measure_thread`), and `server/utils/atomic.py` (the broadcaster of
per-subscriber queues).

Modelling conventions: Python `float` temperatures and `timedelta` durations
are modelled as exact rationals (durations in seconds, as produced by
`timedelta.total_seconds`); Python strings are modelled as `List Char`
(`PyStr`), so that the slice `s[:5]` is `List.take 5`; exceptions are
modelled with `Except`/`Option`.  All definitions are executable.
-/

namespace ThermometerFilm

/-- Decidable equality for `Except`, so that concrete evaluations can be
checked by `decide`. -/
instance {ε α : Type} [DecidableEq ε] [DecidableEq α] :
    DecidableEq (Except ε α) := fun a b =>
  match a, b with
  | Except.error e, Except.error e' =>
    if h : e = e' then Decidable.isTrue (by rw [h])
    else Decidable.isFalse (by intro hc; cases hc; exact h rfl)
  | Except.error _, Except.ok _ => Decidable.isFalse (by intro hc; cases hc)
  | Except.ok _, Except.error _ => Decidable.isFalse (by intro hc; cases hc)
  | Except.ok v, Except.ok v' =>
    if h : v = v' then Decidable.isTrue (by rw [h])
    else Decidable.isFalse (by intro hc; cases hc; exact h rfl)

/-- A Python string, as its list of characters. -/
abbrev PyStr := List Char

/-- Model of `dict.get` / `dict[k]` for a mapping built by repeated
assignment: the association list is kept most-recent-binding-first, so the
first matching key is the binding the Python dict would hold. -/
def dictGet {β : Type} (m : List (PyStr × β)) (k : PyStr) : Option β :=
  match m with
  | [] => none
  | (k', v) :: rest => if k' = k then some v else dictGet rest k

namespace Development

/-- Exceptions that evaluating a calibration table can raise:
`UserError("Too cold")` and `UserError("Too hot")` from the explicit range
checks, and the `IndexError` that `temp_durations[0]` raises on an empty
table (an ordinary `Exception`, not a `UserError`). -/
inductive EvalErr where
  | tooCold
  | tooHot
  | emptyTable
deriving DecidableEq, Repr

/-- The `for t, d in temp_durations[1:]` loop of `evaluate` in
`development.py`: `lastT`/`lastD` track `last_t`/`last_d`, `finalD` is
`temp_durations[-1][1]`, returned when the loop falls through (the
"exactly at the maximum" edge case). -/
def interpScan (lastT lastD : ℚ) (ps : List (ℚ × ℚ)) (finalD : ℚ)
    (temperature : ℚ) : ℚ :=
  match ps with
  | [] => finalD
  | (t, d) :: tl =>
    if lastT ≤ temperature ∧ temperature < t then
      ((temperature - lastT) * d + (t - temperature) * lastD) / (t - lastT)
    else
      interpScan t d tl finalD temperature

/-- Model of `evaluate` from `_evaluator` in `development.py`, over the zipped list
`temp_durations` of (temperature, duration-in-seconds) pairs.  It is a pure
function of the table and the input: repeated calls trivially agree and the
table is never modified. -/
def evaluate (points : List (ℚ × ℚ)) (temperature : ℚ) : Except EvalErr ℚ :=
  match points with
  | [] => Except.error EvalErr.emptyTable
  | p0 :: rest =>
    if temperature < p0.1 then Except.error EvalErr.tooCold
    else if temperature > (rest.getLastD p0).1 then Except.error EvalErr.tooHot
    else Except.ok (interpScan p0.1 p0.2 rest (rest.getLastD p0).2 temperature)

/-- Model of `_evaluator(temperatures, durations)`: zips the two lists (as Python
`zip`, truncating to the shorter) and evaluates. -/
def evaluator (temperatures durations : List ℚ) (temperature : ℚ) :
    Except EvalErr ℚ :=
  evaluate (List.zip temperatures durations) temperature

/-- Model of `FilmDetails`, with the `evaluator` closure defunctionalised to the
`temp_durations` list it captures. -/
structure FilmDetails where
  brand : PyStr
  film_type : PyStr
  dx_number : PyStr
  points : List (ℚ × ℚ)
deriving DecidableEq, Repr

/-- Model of `FilmDetails.development_time`. -/
def FilmDetails.development_time (fd : FilmDetails) (temp_celsius : ℚ) :
    Except EvalErr ℚ :=
  evaluate fd.points temp_celsius

/-- Model of the dataclass string form: brand, a space, film type. -/
def FilmDetails.str (fd : FilmDetails) : PyStr :=
  fd.brand ++ [' '] ++ fd.film_type

/-- The `by_name` dict built in `DevelopmentTime.__init__`. -/
def buildByName (films : List FilmDetails) : List (PyStr × FilmDetails) :=
  films.foldl (fun m fd => (fd.str, fd) :: m) []

/-- The `by_dx_number` dict built in `DevelopmentTime.__init__`: keyed by
`fd.dx_number[:5]`, skipping films with an empty DX number. -/
def buildByDx (films : List FilmDetails) : List (PyStr × FilmDetails) :=
  films.foldl
    (fun m fd =>
      if fd.dx_number ≠ [] then (fd.dx_number.take 5, fd) :: m else m) []

/-- The two lookup tables a `DevelopmentTime` instance holds. -/
structure DevelopmentTime where
  by_name : List (PyStr × FilmDetails)
  by_dx_number : List (PyStr × FilmDetails)
deriving DecidableEq, Repr

/-- The dict-building part of `DevelopmentTime.__init__`, given the parsed
film list. -/
def DevelopmentTime.ofFilms (films : List FilmDetails) : DevelopmentTime :=
  ⟨buildByName films, buildByDx films⟩

/-- Model of `DevelopmentTime.for_dx_number`: truncates the query to its first five
characters and does a `dict.get` (absence is `none`, not an error). -/
def DevelopmentTime.for_dx_number (self : DevelopmentTime)
    (dx_number : PyStr) : Option FilmDetails :=
  dictGet self.by_dx_number (dx_number.take 5)

/-- Model of `DevelopmentTime.for_film`: `by_name[film_name]`, raising `KeyError`
(modelled as `none`) when absent. -/
def DevelopmentTime.for_film (self : DevelopmentTime) (film_name : PyStr) :
    Option FilmDetails :=
  dictGet self.by_name film_name

/-- The example product of the spec's test scenario: source code
`"0175349"` (short code `"01753"`), calibration `20°C ↦ 7:00`,
`24°C ↦ 5:00`. -/
def sampleFilm : FilmDetails :=
  ⟨"Ilford".toList, "HP5 Plus".toList, "0175349".toList,
    [(20, 420), (24, 300)]⟩

end Development

namespace Build

open Development

/-- The failure modes of building a `DevelopmentTime`:
`ValueError("Expected: Chart Letter")`, `ValueError("Unable to parse
temperature: ...")`, the uncaught `ValueError` that `float()` raises on a
regex-matching but non-numeric group, `ValueError("Unable to parse
duration: ...")`, the uncaught `ValueError` from `int()`, the `KeyError`
from `durations_map[chart_letter]`, and the `IndexError` from `row[0]` on
an empty row. -/
inductive BuildError where
  | malformedHeader
  | malformedTemperature (text : PyStr)
  | floatValueError (text : PyStr)
  | malformedDuration (text : PyStr)
  | intValueError (text : PyStr)
  | unknownChartLetter (letter : PyStr)
  | emptyRow
deriving DecidableEq, Repr

/-- Numeric value of a digit string. -/
def digitsVal (ds : PyStr) : ℕ :=
  ds.foldl (fun acc c => 10 * acc + (c.toNat - 48)) 0

/-- Whether a string matches the capture group `[+-]?\d*[.,]?\d*` of the
temperature regex: an optional sign, then digits with at most one `.` or
`,` anywhere (both `\d*` parts may be empty).  Digits are modelled as
ASCII `0`-`9`. -/
def isTempGroup (g : PyStr) : Bool :=
  let body :=
    match g with
    | c :: rest => if c = '+' ∨ c = '-' then rest else g
    | [] => []
  match body.filter (fun c => !c.isDigit) with
  | [] => true
  | [c] => c == '.' || c == ','
  | _ => false

/-- Whether a header cell matches `^([+-]?\d*[.,]?\d*)°C$`. -/
def matchesTemp (s : PyStr) : Bool :=
  match s.reverse with
  | 'C' :: '°' :: groupRev => isTempGroup groupRev.reverse
  | _ => false

/-- Python `float()` on the matched group, as an exact rational.
Accepts `[+-]? digits [. digits]` with at least one digit; rejects the
empty/sign-only/comma forms (on which `float()` raises `ValueError`).
`float()`'s tolerance for surrounding whitespace, underscores and
`inf`/`nan` spellings is not modelled (the group shape excludes them). -/
def pyFloat (g : PyStr) : Option ℚ :=
  let sgn : ℚ := match g with
    | '-' :: _ => -1
    | _ => 1
  let body := match g with
    | c :: rest => if c = '+' ∨ c = '-' then rest else g
    | [] => []
  let intPart := body.takeWhile (fun c => c ≠ '.')
  let dotRest := body.dropWhile (fun c => c ≠ '.')
  let fracPart := match dotRest with
    | [] => []
    | _ :: r => r
  if intPart.all Char.isDigit ∧ fracPart.all Char.isDigit ∧
      (intPart ≠ [] ∨ fracPart ≠ []) then
    some (sgn * ((digitsVal intPart : ℚ) +
      (digitsVal fracPart : ℚ) / (10 : ℚ) ^ fracPart.length))
  else none

/-- Model of `parse_temp` inside `_parse_temperatures_header`: a cell that does not
match the regex raises `ValueError("Unable to parse temperature: ...")`;
a matching cell is converted with `float()` on the captured group. -/
def parse_temp (temp : PyStr) : Except BuildError ℚ :=
  if matchesTemp temp then
    match pyFloat temp.dropLast.dropLast with
    | some v => Except.ok v
    | none => Except.error (BuildError.floatValueError temp)
  else Except.error (BuildError.malformedTemperature temp)

/-- Model of `_parse_temperatures_header`: the first cell must be literally
`"Chart Letter"`, the remaining cells are parsed with `parse_temp`. -/
def parseTemperaturesHeader (header_row : List PyStr) :
    Except BuildError (List ℚ) :=
  match header_row with
  | [] => Except.error BuildError.emptyRow
  | first :: rest =>
    if first = "Chart Letter".toList then rest.mapM parse_temp
    else Except.error BuildError.malformedHeader

/-- Python `str.split` on a single-character separator. -/
def splitOnChar (sep : Char) (cs : PyStr) : List PyStr :=
  match cs with
  | [] => [[]]
  | c :: rest =>
    let r := splitOnChar sep rest
    if c = sep then [] :: r
    else
      match r with
      | [] => [[c]]
      | g :: gs => (c :: g) :: gs

/-- Python `int()` on a piece of a duration cell: an optional sign and a
non-empty run of ASCII digits (whitespace/underscore tolerance of `int()`
is not modelled). -/
def pyInt (s : PyStr) : Option ℤ :=
  match s with
  | '+' :: rest =>
    if rest ≠ [] ∧ rest.all Char.isDigit then some (digitsVal rest) else none
  | '-' :: rest =>
    if rest ≠ [] ∧ rest.all Char.isDigit then some (-(digitsVal rest : ℤ))
    else none
  | _ => if s ≠ [] ∧ s.all Char.isDigit then some (digitsVal s) else none

/-- Model of `_parse_duration`: split on `":"`, require exactly two parts, and build
`timedelta(minutes=int(m), seconds=int(s))`, kept as its
`total_seconds()` value. -/
def parse_duration (d : PyStr) : Except BuildError ℚ :=
  match splitOnChar ':' d with
  | [m, s] =>
    match pyInt m with
    | none => Except.error (BuildError.intValueError m)
    | some mi =>
      match pyInt s with
      | none => Except.error (BuildError.intValueError s)
      | some si => Except.ok ((60 * mi + si : ℤ) : ℚ)
  | _ => Except.error (BuildError.malformedDuration d)

/-- The value stored in `durations_map`: the `_evaluator` closure,
defunctionalised to the `(temperatures, durations)` pair it captures. -/
abbrev DurationsMap := List (PyStr × (List ℚ × List ℚ))

/-- One non-header iteration of the `_read_chart_letter` loop. -/
def readChartRow (temperatures : List ℚ) (durations_map : DurationsMap)
    (row : List PyStr) : Except BuildError DurationsMap :=
  match row with
  | [] => Except.error BuildError.emptyRow
  | chart_letter :: cells => do
    let durations ← cells.mapM parse_duration
    pure ((chart_letter, (temperatures, durations)) :: durations_map)

/-- Model of `_read_chart_letter` over already-split CSV rows: the first row is the
temperatures header, each later row contributes one chart letter. -/
def read_chart_letter (rows : List (List PyStr)) :
    Except BuildError DurationsMap :=
  match rows with
  | [] => Except.ok []
  | header :: body => do
    let temperatures ← parseTemperaturesHeader header
    body.foldlM (readChartRow temperatures) []

/-- One row of the films CSV, as `csv.DictReader` hands it to
`_read_films`. -/
structure FilmRow where
  brand : PyStr
  film_type : PyStr
  dx_number : PyStr
  chart_letter : PyStr
deriving DecidableEq, Repr

/-- Model of `_read_films`: every row's letter is resolved in `durations_map`
(`KeyError`, i.e. `unknownChartLetter`, if absent) and the matching
evaluator closure is attached to the `FilmDetails`. -/
def read_films (rows : List FilmRow) (durations_map : DurationsMap) :
    Except BuildError (List FilmDetails) :=
  rows.mapM fun row =>
    match dictGet durations_map row.chart_letter with
    | some td =>
      Except.ok (⟨row.brand, row.film_type, row.dx_number,
        List.zip td.1 td.2⟩ : FilmDetails)
    | none => Except.error (BuildError.unknownChartLetter row.chart_letter)

/-- Model of `DevelopmentTime.__init__`: read the chart-letter table, read the film
directory against it, then build the two lookup dicts.  Any failure aborts
the whole build: no `DevelopmentTime` is produced. -/
def DevelopmentTime.make (filmRows : List FilmRow)
    (chartRows : List (List PyStr)) : Except BuildError DevelopmentTime := do
  let durations_map ← read_chart_letter chartRows
  let films ← read_films filmRows durations_map
  pure (DevelopmentTime.ofFilms films)

end Build

namespace Web

open Development

/-- Result of `details.development_time(water_temp)` as discriminated by
the `try/except` in `_measure_thread`: a value, a `development.UserError`
(whose `str(e)` is kept), or any other exception. -/
inductive DevResult where
  | ok (secs : ℚ)
  | user (msg : PyStr)
  | other
deriving DecidableEq, Repr

/-- How an `evaluate` outcome surfaces to `_measure_thread`:
`UserError("Too cold")`/`UserError("Too hot")` carry their message, the
`IndexError` of an empty table is an ordinary exception. -/
def toDevResult : Except EvalErr ℚ → DevResult
  | Except.ok s => DevResult.ok s
  | Except.error EvalErr.tooCold => DevResult.user ("Too cold".toList)
  | Except.error EvalErr.tooHot => DevResult.user ("Too hot".toList)
  | Except.error EvalErr.emptyTable => DevResult.other

/-- The `payload["development"]` dict: duration in seconds, the film's
identity, and the optional `"error"` annotation. -/
structure DevEntry where
  duration : ℚ
  brand : PyStr
  film_type : PyStr
  dx_number : PyStr
  error : Option PyStr
deriving DecidableEq, Repr

/-- One broadcast payload of `_measure_thread`: the `"temperatures"` list
of `{"id": ..., "temperature": ...}` entries, the optional `"humidity"`
reading (its `"id"` is the constant `"air"`), and the optional
`"development"` entry. -/
structure Payload where
  temperatures : List (PyStr × ℚ)
  humidity : Option ℚ
  development : Option DevEntry
deriving DecidableEq, Repr

/-- The `try/except development.UserError/except Exception` block of
`_measure_thread`: a `UserError` yields duration `-1` and `str(e)` as the
error annotation; any other exception yields `-1` and `"Internal error"`;
success yields `total_seconds()` and no annotation.  In all three cases
the tick continues. -/
def devEntry (fd : FilmDetails) (water_temp : ℚ) : DevEntry :=
  match toDevResult (fd.development_time water_temp) with
  | DevResult.ok s => ⟨s, fd.brand, fd.film_type, fd.dx_number, none⟩
  | DevResult.user msg =>
    ⟨-1, fd.brand, fd.film_type, fd.dx_number, some msg⟩
  | DevResult.other =>
    ⟨-1, fd.brand, fd.film_type, fd.dx_number,
      some ("Internal error".toList)⟩

/-- Model of `humidity_sensor() if humidity_sensor else None`: absent sensor gives
`None`; a configured sensor's read either yields a value or raises. -/
def runHumidity : Option (Except Unit ℚ) → Except Unit (Option ℚ)
  | none => Except.ok none
  | some (Except.ok h) => Except.ok (some h)
  | some (Except.error e) => Except.error e

/-- One iteration of the `while` loop of `_measure_thread`, up to the
`subscribers.broadcast(payload)` call.  The sensor reads happen inside the
single `try:` of the loop body — the dict comprehension
`{name: handler() for ...}` evaluates `air` then `water`, and any raise
propagates to the bare `except:` — so a failing sensor read yields no
payload at all for this tick (`none`); the loop then moves on to the next
tick. -/
def measureTick (air water : Except Unit ℚ)
    (humidity : Option (Except Unit ℚ))
    (details : Option FilmDetails) : Option Payload :=
  match air, water, runHumidity humidity with
  | Except.ok a, Except.ok w, Except.ok h =>
    some ⟨[("air".toList, a), ("water".toList, w)], h,
      details.map (fun fd => devEntry fd w)⟩
  | _, _, _ => none

end Web

namespace Atomic

/-- One `queue.SimpleQueue` held by `AtomicThreadLocalQueuesList`: `qid`
models Python object identity (`list.remove` compares `SimpleQueue`s by
identity), `items` the queued payloads, head = next to be popped. -/
structure ObserverQueue (α : Type) where
  qid : ℕ
  items : List α
deriving DecidableEq, Repr

/-- The `_list` of registered queues, in registration order. -/
abbrev State (α : Type) := List (ObserverQueue α)

/-- Model of `acquire`: create a fresh empty queue, append it to `_list`, return
it (`fresh` is the new object's identity). -/
def acquire {α : Type} (st : State α) (fresh : ℕ) :
    ObserverQueue α × State α :=
  (⟨fresh, []⟩, st ++ [⟨fresh, []⟩])

/-- Model of `release`: `self._list.remove(self._thread_local_queue.queue)` — remove
the first occurrence of the calling thread's queue. -/
def release {α : Type} [DecidableEq α] (st : State α) (q : ObserverQueue α) :
    State α :=
  st.erase q

/-- Model of `is_empty`: `len(self._list) == 0`. -/
def is_empty {α : Type} (st : State α) : Bool :=
  st.isEmpty

/-- Model of `SimpleQueue.put`: append the payload at the tail. -/
def put {α : Type} (q : ObserverQueue α) (payload : α) : ObserverQueue α :=
  ⟨q.qid, q.items ++ [payload]⟩

/-- Model of `broadcast`: `for q in self._list: q.put(payload)`. -/
def broadcast {α : Type} (st : State α) (payload : α) : State α :=
  st.map (fun q => put q payload)

/-- A sequence of `broadcast` calls, in global publish order. -/
def broadcastAll {α : Type} (st : State α) (payloads : List α) : State α :=
  payloads.foldl broadcast st

end Atomic

/-- Strict ascent of the temperatures of two calibration points. -/
def tempLt (p q : ℚ × ℚ) : Prop := p.1 < q.1

/-- Ascent (non-strict) of the durations of two calibration points. -/
def durLe (p q : ℚ × ℚ) : Prop := p.2 ≤ q.2

instance : DecidableRel tempLt := fun p q =>
  inferInstanceAs (Decidable (p.1 < q.1))

instance : DecidableRel durLe := fun p q =>
  inferInstanceAs (Decidable (p.2 ≤ q.2))

end ThermometerFilm

namespace ThermometerFilm

namespace Development

/-- In a list chained by `≤` on some projection, the head's projection is a
lower bound for every member. -/
theorem chain'_head_le (f : ℚ × ℚ → ℚ) (p0 : ℚ × ℚ) (rest : List (ℚ × ℚ))
    (h : List.Chain' (fun p q => f p ≤ f q) (p0 :: rest)) :
    ∀ p ∈ p0 :: rest, f p0 ≤ f p := by
  induction rest generalizing p0 with
  | nil =>
    intro p hp
    simp only [List.mem_singleton] at hp
    subst hp
    exact le_refl _
  | cons q rest' ih =>
    intro p hp
    rcases List.mem_cons.mp hp with h0 | hp'
    · subst h0
      exact le_refl _
    · exact le_trans (List.chain'_cons.mp h).1
        (ih q (List.chain'_cons.mp h).2 p hp')

/-- In a list chained by `≤` on some projection, the last element's
projection is an upper bound for every member. -/
theorem chain'_le_getLastD (f : ℚ × ℚ → ℚ) (p0 : ℚ × ℚ)
    (rest : List (ℚ × ℚ))
    (h : List.Chain' (fun p q => f p ≤ f q) (p0 :: rest)) :
    ∀ p ∈ p0 :: rest, f p ≤ f (rest.getLastD p0) := by
  induction rest generalizing p0 with
  | nil =>
    intro p hp
    simp only [List.mem_singleton] at hp
    subst hp
    simp [List.getLastD]
  | cons q rest' ih =>
    intro p hp
    rw [List.getLastD_cons]
    rcases List.mem_cons.mp hp with h0 | hp'
    · subst h0
      exact le_trans (List.chain'_cons.mp h).1
        (ih q (List.chain'_cons.mp h).2 q (by simp))
    · exact ih q (List.chain'_cons.mp h).2 p hp'

/-- A strictly-ascending-temperatures chain, weakened to `≤` on
temperatures. -/
theorem tempLt_chain_le {l : List (ℚ × ℚ)} (h : List.Chain' tempLt l) :
    List.Chain' (fun p q : ℚ × ℚ => p.1 ≤ q.1) l :=
  h.imp (fun _ _ hab => le_of_lt hab)

/-- The scan returns the weighted combination when the current segment
contains the temperature. -/
theorem interpScan_hit (lastT lastD t1 d1 : ℚ) (tl : List (ℚ × ℚ))
    (finalD t : ℚ) (h1 : lastT ≤ t) (h2 : t < t1) :
    interpScan lastT lastD ((t1, d1) :: tl) finalD t
      = ((t - lastT) * d1 + (t1 - t) * lastD) / (t1 - lastT) := by
  simp [interpScan, h1, h2]

/-- The scan moves to the next segment when the temperature is at or past
the segment's right end. -/
theorem interpScan_skip (lastT lastD t1 d1 : ℚ) (tl : List (ℚ × ℚ))
    (finalD t : ℚ) (h : t1 ≤ t) :
    interpScan lastT lastD ((t1, d1) :: tl) finalD t
      = interpScan t1 d1 tl finalD t := by
  have hc : ¬ (lastT ≤ t ∧ t < t1) := fun hc => absurd hc.2 (not_lt.mpr h)
  simp [interpScan, hc]

/-- The scan falls through to `temp_durations[-1][1]` when the temperature
is at or past every scanned point. -/
theorem interpScan_last (lastT lastD : ℚ) (ps : List (ℚ × ℚ))
    (finalD t : ℚ) (h : ∀ p ∈ ps, p.1 ≤ t) :
    interpScan lastT lastD ps finalD t = finalD := by
  induction ps generalizing lastT lastD with
  | nil => rfl
  | cons q tl ih =>
    obtain ⟨t1, d1⟩ := q
    rw [interpScan_skip lastT lastD t1 d1 tl finalD t (h (t1, d1) (by simp))]
    exact ih t1 d1 fun p hp => h p (List.mem_cons_of_mem _ hp)

/-- Locating a segment: with strictly ascending temperatures, if the
temperature sits between the last point of `(lastT, lastD) :: mid` and the
next point `(t1, d1)`, the scan returns that segment's weighted
combination. -/
theorem interpScan_find (mid : List (ℚ × ℚ)) (lastT lastD t1 d1 : ℚ)
    (post : List (ℚ × ℚ)) (finalD t : ℚ)
    (a : List.Chain' tempLt ((lastT, lastD) :: mid ++ (t1, d1) :: post))
    (g : (mid.getLastD (lastT, lastD)).1 ≤ t)
    (h : t < t1) :
    interpScan lastT lastD (mid ++ (t1, d1) :: post) finalD t
      = ((t - (mid.getLastD (lastT, lastD)).1) * d1
          + (t1 - t) * (mid.getLastD (lastT, lastD)).2)
        / (t1 - (mid.getLastD (lastT, lastD)).1) := by
  induction mid generalizing lastT lastD with
  | nil =>
    simp only [List.getLastD_nil] at g ⊢
    simp only [List.nil_append]
    exact interpScan_hit lastT lastD t1 d1 post finalD t g h
  | cons pa mid' ih =>
    obtain ⟨ta, da⟩ := pa
    simp only [List.getLastD_cons] at g ⊢
    simp only [List.cons_append] at a ⊢
    have htail : List.Chain' tempLt ((ta, da) :: mid' ++ (t1, d1) :: post) :=
      a.tail
    have hpre : List.Chain' tempLt ((ta, da) :: mid') := by
      have := (List.chain'_append.mp
        (by simpa using htail : List.Chain' tempLt
          (((ta, da) :: mid') ++ (t1, d1) :: post))).1
      exact this
    have hta : ta ≤ t := by
      have := chain'_le_getLastD Prod.fst (ta, da) mid'
        (tempLt_chain_le hpre) (ta, da) (by simp)
      exact le_trans this g
    rw [interpScan_skip lastT lastD ta da _ finalD t hta]
    exact ih ta da htail g

/-- Locating a segment, at the level of `evaluate`: with strictly
ascending temperatures, a temperature with `t0 ≤ t < t1` for a consecutive
pair yields the weighted combination computed by the source. -/
theorem evaluate_segment (pre post : List (ℚ × ℚ)) (t0 d0 t1 d1 t : ℚ)
    (a : List.Chain' tempLt (pre ++ (t0, d0) :: (t1, d1) :: post))
    (g : t0 ≤ t) (h : t < t1) :
    evaluate (pre ++ (t0, d0) :: (t1, d1) :: post) t
      = Except.ok (((t - t0) * d1 + (t1 - t) * d0) / (t1 - t0)) := by
  cases pre with
  | nil =>
    simp only [List.nil_append]
    have hlast : t1 ≤ ((((t1, d1) :: post).getLastD (t0, d0)).1 : ℚ) := by
      have := chain'_le_getLastD Prod.fst (t0, d0) ((t1, d1) :: post)
        (tempLt_chain_le (by simpa using a)) (t1, d1) (by simp)
      simpa using this
    have hnotlt : ¬ t < (t0, d0).1 := not_lt.mpr g
    have hnotgt : ¬ t > (((t1, d1) :: post).getLastD (t0, d0)).1 :=
      not_lt.mpr (le_trans (le_of_lt h) hlast)
    simp only [evaluate, if_neg hnotlt, if_neg hnotgt]
    rw [interpScan_hit t0 d0 t1 d1 post _ t g h]
  | cons ph pre' =>
    simp only [List.cons_append]
    have hform : ph :: pre' ++ (t0, d0) :: (t1, d1) :: post
        = ph :: (pre' ++ [(t0, d0)]) ++ (t1, d1) :: post := by
      simp
    have hle : List.Chain' (fun p q : ℚ × ℚ => p.1 ≤ q.1)
        (ph :: pre' ++ (t0, d0) :: (t1, d1) :: post) :=
      tempLt_chain_le (by simpa using a)
    have ht0mem : (t0, d0) ∈ ph :: pre' ++ (t0, d0) :: (t1, d1) :: post := by
      simp
    have ht1mem : (t1, d1) ∈ ph :: pre' ++ (t0, d0) :: (t1, d1) :: post := by
      simp
    have hnotlt : ¬ t < ph.1 := by
      have := chain'_head_le Prod.fst ph _ hle (t0, d0) ht0mem
      exact not_lt.mpr (le_trans this g)
    have hlast : t1 ≤
        (((pre' ++ (t0, d0) :: (t1, d1) :: post).getLastD ph).1 : ℚ) := by
      have := chain'_le_getLastD Prod.fst ph _ hle (t1, d1) ht1mem
      exact this
    have hnotgt : ¬ t >
        ((pre' ++ (t0, d0) :: (t1, d1) :: post).getLastD ph).1 :=
      not_lt.mpr (le_trans (le_of_lt h) hlast)
    simp only [evaluate, if_neg hnotlt, if_neg hnotgt]
    have hmid : pre' ++ (t0, d0) :: (t1, d1) :: post
        = (pre' ++ [(t0, d0)]) ++ (t1, d1) :: post := by
      simp
    have hgl : ((pre' ++ [(t0, d0)]).getLastD (ph.1, ph.2)) = (t0, d0) :=
      List.getLastD_concat _ _ _
    have hfind := interpScan_find (pre' ++ [(t0, d0)]) ph.1 ph.2 t1 d1 post
      ((pre' ++ (t0, d0) :: (t1, d1) :: post).getLastD ph).2 t
      (by simpa using a)
      (by rw [hgl]; exact g) h
    have hfd : ((pre' ++ (t0, d0) :: (t1, d1) :: post).getLastD ph)
        = (((pre' ++ [(t0, d0)]) ++ (t1, d1) :: post).getLastD ph) := by
      rw [← hmid]
    rw [hmid, ← hfd, hfind, hgl]

/-- With ascending temperatures and durations, the scan's result is at
least the duration of the segment's left end. -/
theorem interpScan_ge (ps : List (ℚ × ℚ)) (lastT lastD finalD t : ℚ)
    (a : List.Chain' tempLt ((lastT, lastD) :: ps))
    (d : List.Chain' durLe ((lastT, lastD) :: ps))
    (f : finalD = (ps.getLastD (lastT, lastD)).2)
    (g : lastT ≤ t) :
    lastD ≤ interpScan lastT lastD ps finalD t := by
  induction ps generalizing lastT lastD with
  | nil =>
    subst f
    simp [interpScan, List.getLastD_nil]
  | cons q tl ih =>
    obtain ⟨t1, d1⟩ := q
    have hlt : lastT < t1 := (List.chain'_cons.mp a).1
    have hdle : lastD ≤ d1 := (List.chain'_cons.mp d).1
    by_cases hc : t < t1
    · rw [interpScan_hit lastT lastD t1 d1 tl finalD t g hc]
      rw [le_div_iff₀ (by linarith : (0 : ℚ) < t1 - lastT)]
      nlinarith [mul_nonneg (sub_nonneg.mpr g) (sub_nonneg.mpr hdle)]
    · push_neg at hc
      rw [interpScan_skip lastT lastD t1 d1 tl finalD t hc]
      exact le_trans hdle (ih t1 d1 a.tail d.tail
        (by rw [f, List.getLastD_cons]) hc)

/-- With ascending temperatures and durations, the scan's result is at
most the table's final duration. -/
theorem interpScan_le (ps : List (ℚ × ℚ)) (lastT lastD finalD t : ℚ)
    (a : List.Chain' tempLt ((lastT, lastD) :: ps))
    (d : List.Chain' durLe ((lastT, lastD) :: ps))
    (f : finalD = (ps.getLastD (lastT, lastD)).2)
    (g : lastT ≤ t) :
    interpScan lastT lastD ps finalD t ≤ finalD := by
  induction ps generalizing lastT lastD with
  | nil =>
    subst f
    simp [interpScan, List.getLastD_nil]
  | cons q tl ih =>
    obtain ⟨t1, d1⟩ := q
    have hlt : lastT < t1 := (List.chain'_cons.mp a).1
    have hdle : lastD ≤ d1 := (List.chain'_cons.mp d).1
    have hd1f : d1 ≤ finalD := by
      rw [f, List.getLastD_cons]
      exact chain'_le_getLastD Prod.snd (t1, d1) tl d.tail (t1, d1) (by simp)
    by_cases hc : t < t1
    · rw [interpScan_hit lastT lastD t1 d1 tl finalD t g hc]
      refine le_trans ?_ hd1f
      rw [div_le_iff₀ (by linarith : (0 : ℚ) < t1 - lastT)]
      nlinarith [mul_nonneg (sub_nonneg.mpr (le_of_lt hc))
        (sub_nonneg.mpr hdle)]
    · push_neg at hc
      rw [interpScan_skip lastT lastD t1 d1 tl finalD t hc]
      exact ih t1 d1 a.tail d.tail (by rw [f, List.getLastD_cons]) hc

/-- With ascending temperatures and durations, the scan is monotone in the
temperature. -/
theorem interpScan_mono (ps : List (ℚ × ℚ)) (lastT lastD finalD t t' : ℚ)
    (a : List.Chain' tempLt ((lastT, lastD) :: ps))
    (d : List.Chain' durLe ((lastT, lastD) :: ps))
    (f : finalD = (ps.getLastD (lastT, lastD)).2)
    (g : lastT ≤ t) (h : t ≤ t') :
    interpScan lastT lastD ps finalD t ≤ interpScan lastT lastD ps finalD t' := by
  induction ps generalizing lastT lastD with
  | nil => simp [interpScan]
  | cons q tl ih =>
    obtain ⟨t1, d1⟩ := q
    have hlt : lastT < t1 := (List.chain'_cons.mp a).1
    have hdle : lastD ≤ d1 := (List.chain'_cons.mp d).1
    by_cases hc : t < t1
    · rw [interpScan_hit lastT lastD t1 d1 tl finalD t g hc]
      by_cases hc' : t' < t1
      · rw [interpScan_hit lastT lastD t1 d1 tl finalD t'
          (le_trans g h) hc']
        rw [div_le_div_iff_of_pos_right (by linarith : (0 : ℚ) < t1 - lastT)]
        nlinarith [mul_nonneg (sub_nonneg.mpr h) (sub_nonneg.mpr hdle)]
      · push_neg at hc'
        have h1 : ((t - lastT) * d1 + (t1 - t) * lastD) / (t1 - lastT)
            ≤ d1 := by
          rw [div_le_iff₀ (by linarith : (0 : ℚ) < t1 - lastT)]
          nlinarith [mul_nonneg (sub_nonneg.mpr (le_of_lt hc))
            (sub_nonneg.mpr hdle)]
        have h2 : d1 ≤ interpScan t1 d1 tl finalD t' :=
          interpScan_ge tl t1 d1 finalD t' a.tail d.tail
            (by rw [f, List.getLastD_cons]) hc'
        rw [interpScan_skip lastT lastD t1 d1 tl finalD t' hc']
        exact le_trans h1 h2
    · push_neg at hc
      have hc' : t1 ≤ t' := le_trans hc h
      rw [interpScan_skip lastT lastD t1 d1 tl finalD t hc,
        interpScan_skip lastT lastD t1 d1 tl finalD t' hc']
      exact ih t1 d1 a.tail d.tail (by rw [f, List.getLastD_cons]) hc

/-- C1: for every calibration table of at least two points (with the
strictly ascending temperatures the data model requires), `evaluate` fails
with the `TooCold` user condition exactly when the temperature is strictly
below the smallest calibration temperature and with `TooHot` exactly when
it is strictly above the largest; the third conjunct shows the table's
first and last temperatures are its smallest and largest.  `evaluate` is a
pure Lean function of the table and the input, so the table is unchanged
and repeated calls agree by definitional equality. -/
theorem evaluate_range_errors (p0 : ℚ × ℚ) (rest : List (ℚ × ℚ))
    (temperature : ℚ) (n : rest ≠ [])
    (a : List.Chain' tempLt (p0 :: rest)) :
    (evaluate (p0 :: rest) temperature = Except.error EvalErr.tooCold ↔
      temperature < p0.1) ∧
    (evaluate (p0 :: rest) temperature = Except.error EvalErr.tooHot ↔
      (rest.getLastD p0).1 < temperature) ∧
    (∀ p ∈ p0 :: rest, p0.1 ≤ p.1 ∧ p.1 ≤ (rest.getLastD p0).1) := by
  have hle := tempLt_chain_le a
  have hmin := chain'_head_le Prod.fst p0 rest hle
  have hmax := chain'_le_getLastD Prod.fst p0 rest hle
  have hminmax : p0.1 ≤ (rest.getLastD p0).1 := hmax p0 (by simp)
  have hev : evaluate (p0 :: rest) temperature =
      (if temperature < p0.1 then Except.error EvalErr.tooCold
       else if temperature > (rest.getLastD p0).1 then
         Except.error EvalErr.tooHot
       else Except.ok
         (interpScan p0.1 p0.2 rest (rest.getLastD p0).2 temperature)) := rfl
  refine ⟨?_, ?_, fun p hp => ⟨hmin p hp, hmax p hp⟩⟩
  · rw [hev]
    by_cases h1 : temperature < p0.1
    · rw [if_pos h1]
      exact iff_of_true rfl h1
    · rw [if_neg h1]
      by_cases h2 : (rest.getLastD p0).1 < temperature
      · rw [if_pos h2]
        exact iff_of_false (by simp) h1
      · rw [if_neg h2]
        exact iff_of_false (by simp) h1
  · rw [hev]
    by_cases h1 : temperature < p0.1
    · rw [if_pos h1]
      exact iff_of_false (by simp)
        (not_lt.mpr (le_of_lt (lt_of_lt_of_le h1 hminmax)))
    · rw [if_neg h1]
      by_cases h2 : (rest.getLastD p0).1 < temperature
      · rw [if_pos h2]
        exact iff_of_true rfl h2
      · rw [if_neg h2]
        exact iff_of_false (by simp) h2

/-- Witness for C1: on the table `[(20, 420), (24, 300)]`, `19` is below
the smallest temperature and evaluation fails with `TooCold`. -/
theorem evaluate_range_errors_witness :
    evaluate [(20, 420), (24, 300)] 19 = Except.error EvalErr.tooCold :=
  ((evaluate_range_errors (20, 420) [(24, 300)] 19 (by decide)
    (by norm_num [List.chain'_cons, List.chain'_singleton, tempLt])).1).mpr
    (by norm_num)

/-- C2: with strictly ascending temperatures, a temperature between a
consecutive pair `(t0, d0), (t1, d1)` of calibration points (inclusive on
the left) evaluates to the linear interpolation
`d0 + (t - t0) / (t1 - t0) * (d1 - d0)`; durations are handled in seconds
throughout (the embedding works in the `total_seconds` scale the source
converts to before the weighted combination). -/
theorem evaluate_interpolates (pre post : List (ℚ × ℚ)) (t0 d0 t1 d1 t : ℚ)
    (a : List.Chain' tempLt (pre ++ (t0, d0) :: (t1, d1) :: post))
    (g : t0 ≤ t) (h : t < t1) :
    evaluate (pre ++ (t0, d0) :: (t1, d1) :: post) t
      = Except.ok (d0 + (t - t0) / (t1 - t0) * (d1 - d0)) := by
  rw [evaluate_segment pre post t0 d0 t1 d1 t a g h]
  congr 1
  have hne : t1 - t0 ≠ 0 :=
    sub_ne_zero.mpr (ne_of_gt (lt_of_le_of_lt g h))
  field_simp
  ring

/-- Witness for C2 on the spec's example table at `22`. -/
theorem evaluate_interpolates_witness :
    evaluate [(20, 420), (24, 300)] 22
      = Except.ok (420 + (22 - 20) / (24 - 20) * (300 - 420)) :=
  evaluate_interpolates [] [] 20 420 24 300 22
    (by norm_num [List.chain'_cons, List.chain'_singleton, tempLt])
    (by norm_num) (by norm_num)

/-- C3: the example table (temperatures `[20.0, 24.0]`, durations
`["7:00", "5:00"]`, i.e. 420 s and 300 s) evaluates to exactly 360 s
(6:00) at `22.0`; and for every table with strictly ascending
temperatures, evaluating exactly at the smallest temperature returns that
point's stored duration, and evaluating exactly at the largest returns the
last point's duration via the explicit fall-through branch. -/
theorem evaluate_endpoints :
    (Build.parse_duration ("7:00".toList) = Except.ok 420 ∧
     Build.parse_duration ("5:00".toList) = Except.ok 300 ∧
     evaluator [20, 24] [420, 300] 22 = Except.ok 360) ∧
    (∀ (p0 p1 : ℚ × ℚ) (rest : List (ℚ × ℚ)),
      List.Chain' tempLt (p0 :: p1 :: rest) →
      evaluate (p0 :: p1 :: rest) p0.1 = Except.ok p0.2) ∧
    (∀ (p0 : ℚ × ℚ) (rest : List (ℚ × ℚ)), rest ≠ [] →
      List.Chain' tempLt (p0 :: rest) →
      evaluate (p0 :: rest) (rest.getLastD p0).1
        = Except.ok (rest.getLastD p0).2) := by
  refine ⟨⟨by decide, by decide, ?_⟩, ?_, ?_⟩
  · show evaluate [(20, 420), (24, 300)] 22 = Except.ok 360
    norm_num [evaluate, interpScan, List.getLastD]
  · intro p0 p1 rest a
    have hlt : p0.1 < p1.1 := (List.chain'_cons.mp a).1
    have hseg := evaluate_segment [] rest p0.1 p0.2 p1.1 p1.2 p0.1
      (by simpa using a) (le_refl _) hlt
    have hval : (p1.1 - p0.1) * p0.2 / (p1.1 - p0.1) = p0.2 :=
      mul_div_cancel_left₀ _ (sub_ne_zero.mpr (ne_of_gt hlt))
    simpa [hval] using hseg
  · intro p0 rest n a
    have hle := tempLt_chain_le a
    have hmax := chain'_le_getLastD Prod.fst p0 rest hle
    have h1 : ¬ (rest.getLastD p0).1 < p0.1 := not_lt.mpr (hmax p0 (by simp))
    have h2 : ¬ (rest.getLastD p0).1 > (rest.getLastD p0).1 := lt_irrefl _
    simp only [evaluate, if_neg h1, if_neg h2]
    rw [interpScan_last p0.1 p0.2 rest _ _
      (fun p hp => hmax p (List.mem_cons_of_mem _ hp))]

/-- Witness for C3: both endpoints of the example table evaluate to their
stored durations. -/
theorem evaluate_endpoints_witness :
    evaluate [(20, 420), (24, 300)] 20 = Except.ok 420 ∧
    evaluate [(20, 420), (24, 300)] 24 = Except.ok 300 := by
  constructor
  · have := evaluate_endpoints.2.1 (20, 420) (24, 300) []
      (by norm_num [List.chain'_cons, List.chain'_singleton, tempLt])
    simpa using this
  · have := evaluate_endpoints.2.2 (20, 420) [(24, 300)] (by decide)
      (by norm_num [List.chain'_cons, List.chain'_singleton, tempLt])
    simpa using this

/-- C4: for a valid table (≥ 2 points, strictly ascending temperatures,
ascending durations), evaluating strictly between two adjacent points
yields a duration between those points' durations (inclusive), and
`evaluate` is monotone non-decreasing over the table's range. -/
theorem evaluate_between_and_monotone (points : List (ℚ × ℚ))
    (a : List.Chain' tempLt points) (d : List.Chain' durLe points)
    (n : 2 ≤ points.length) :
    (∀ (pre post : List (ℚ × ℚ)) (t0 d0 t1 d1 t : ℚ),
      points = pre ++ (t0, d0) :: (t1, d1) :: post → t0 < t → t < t1 →
      ∃ r, evaluate points t = Except.ok r ∧ d0 ≤ r ∧ r ≤ d1) ∧
    (∀ (p0 : ℚ × ℚ) (rest : List (ℚ × ℚ)) (t t' : ℚ),
      points = p0 :: rest → p0.1 ≤ t → t ≤ t' →
      t' ≤ (rest.getLastD p0).1 →
      ∃ r r', evaluate points t = Except.ok r ∧
        evaluate points t' = Except.ok r' ∧ r ≤ r') := by
  constructor
  · intro pre post t0 d0 t1 d1 t hsplit hg hh
    subst hsplit
    refine ⟨_, evaluate_segment pre post t0 d0 t1 d1 t a
      (le_of_lt hg) hh, ?_, ?_⟩
    · have hpos : (0 : ℚ) < t1 - t0 := by
        have := lt_trans hg hh
        linarith
      have hd01 : d0 ≤ d1 :=
        (List.chain'_cons.mp (List.chain'_append.mp d).2.1).1
      rw [le_div_iff₀ hpos]
      nlinarith [mul_nonneg (sub_nonneg.mpr (le_of_lt hg))
        (sub_nonneg.mpr hd01)]
    · have hpos : (0 : ℚ) < t1 - t0 := by
        have := lt_trans hg hh
        linarith
      have hd01 : d0 ≤ d1 :=
        (List.chain'_cons.mp (List.chain'_append.mp d).2.1).1
      rw [div_le_iff₀ hpos]
      nlinarith [mul_nonneg (sub_nonneg.mpr (le_of_lt hh))
        (sub_nonneg.mpr hd01)]
  · intro p0 rest t t' hsplit hg hh hl
    subst hsplit
    have h1 : ¬ t < p0.1 := not_lt.mpr hg
    have h1' : ¬ t' < p0.1 := not_lt.mpr (le_trans hg hh)
    have h2' : ¬ t' > (rest.getLastD p0).1 := not_lt.mpr hl
    have h2 : ¬ t > (rest.getLastD p0).1 := not_lt.mpr (le_trans hh hl)
    have hev : ∀ s : ℚ, evaluate (p0 :: rest) s =
        (if s < p0.1 then Except.error EvalErr.tooCold
         else if s > (rest.getLastD p0).1 then Except.error EvalErr.tooHot
         else Except.ok
           (interpScan p0.1 p0.2 rest (rest.getLastD p0).2 s)) :=
      fun s => rfl
    refine ⟨interpScan p0.1 p0.2 rest (rest.getLastD p0).2 t,
      interpScan p0.1 p0.2 rest (rest.getLastD p0).2 t', ?_, ?_, ?_⟩
    · rw [hev t, if_neg h1, if_neg h2]
    · rw [hev t', if_neg h1', if_neg h2']
    · exact interpScan_mono rest p0.1 p0.2 _ t t' (by simpa using a)
        (by simpa using d) (by rw [Prod.mk.eta]) hg hh

/-- Witness for C4 on the ascending-durations table
`[(20, 300), (24, 420)]`. -/
theorem evaluate_between_and_monotone_witness :
    (∃ r, evaluate [(20, 300), (24, 420)] 22 = Except.ok r ∧
      (300 : ℚ) ≤ r ∧ r ≤ 420) ∧
    (∃ r r', evaluate [(20, 300), (24, 420)] 21 = Except.ok r ∧
      evaluate [(20, 300), (24, 420)] 23 = Except.ok r' ∧ r ≤ r') := by
  constructor
  · exact (evaluate_between_and_monotone [(20, 300), (24, 420)]
      (by norm_num [List.chain'_cons, List.chain'_singleton, tempLt])
      (by norm_num [List.chain'_cons, List.chain'_singleton, durLe])
      (by decide)).1 [] [] 20 300 24 420 22 rfl
      (by norm_num) (by norm_num)
  · exact (evaluate_between_and_monotone [(20, 300), (24, 420)]
      (by norm_num [List.chain'_cons, List.chain'_singleton, tempLt])
      (by norm_num [List.chain'_cons, List.chain'_singleton, durLe])
      (by decide)).2 (20, 300) [(24, 420)] 21 23 rfl
      (by norm_num : (20 : ℚ) ≤ 21) (by norm_num : (21 : ℚ) ≤ 23)
      (by norm_num : (23 : ℚ) ≤ 24)

end Development

/-- Lookup by `dictGet` misses exactly when the key is bound nowhere in the map. -/
theorem dictGet_eq_none_iff {β : Type} (m : List (PyStr × β)) (k : PyStr) :
    dictGet m k = none ↔ k ∉ m.map Prod.fst := by
  induction m with
  | nil => exact iff_of_true rfl (List.not_mem_nil k)
  | cons kv rest ih =>
    obtain ⟨k', v⟩ := kv
    have hc : dictGet ((k', v) :: rest) k
        = if k' = k then some v else dictGet rest k := rfl
    rw [hc, List.map_cons, List.mem_cons]
    by_cases h : k' = k
    · rw [if_pos h]
      exact iff_of_false (by simp) (fun hn => hn (Or.inl h.symm))
    · rw [if_neg h, ih]
      constructor
      · intro hk hor
        rcases hor with h1 | h2
        · exact h h1.symm
        · exact hk h2
      · intro hk h2
        exact hk (Or.inr h2)

/-- C7: `for_dx_number` truncates the query to its first five characters
before the lookup, returns `none` (absence, not an error) exactly when no
entry is keyed by the truncated code, and on the registry built from the
product with source code `"0175349"` (short code `"01753"`) both queries
`"017534"` and `"0175349"` return that product. -/
theorem for_dx_number_truncates :
    (∀ (db : Development.DevelopmentTime) (dx : PyStr),
      db.for_dx_number dx = db.for_dx_number (dx.take 5)) ∧
    (∀ (db : Development.DevelopmentTime) (dx : PyStr),
      db.for_dx_number dx = none ↔
        dx.take 5 ∉ db.by_dx_number.map Prod.fst) ∧
    ((Development.DevelopmentTime.ofFilms
        [Development.sampleFilm]).for_dx_number ("017534".toList)
      = some Development.sampleFilm ∧
     (Development.DevelopmentTime.ofFilms
        [Development.sampleFilm]).for_dx_number ("0175349".toList)
      = some Development.sampleFilm) := by
  refine ⟨?_, ?_, by decide, by decide⟩
  · intro db dx
    simp [Development.DevelopmentTime.for_dx_number, List.take_take]
  · intro db dx
    exact dictGet_eq_none_iff db.by_dx_number (dx.take 5)

/-- Witness for C7: a lookup that misses returns `none`. -/
theorem for_dx_number_truncates_witness :
    (Development.DevelopmentTime.ofFilms
      [Development.sampleFilm]).for_dx_number ("99999".toList) = none := by
  rw [(for_dx_number_truncates.2.1 (Development.DevelopmentTime.ofFilms
    [Development.sampleFilm]) ("99999".toList))]
  decide

namespace Atomic

/-- C8: `broadcast` maps every registered queue to the same queue with the
payload appended at its tail (previous items in place, `qid` unchanged),
and registers nothing new (`getElem?` is `none` exactly where it was
`none`); folding a list of publishes appends them all in publish order, so
each queue drains in FIFO order matching the global publish order. -/
theorem broadcast_appends {α : Type} :
    (∀ (st : State α) (p : α) (i : ℕ),
      (broadcast st p)[i]? =
        st[i]?.map (fun q => ObserverQueue.mk q.qid (q.items ++ [p]))) ∧
    (∀ (st : State α) (ps : List α) (i : ℕ),
      (broadcastAll st ps)[i]? =
        st[i]?.map (fun q => ObserverQueue.mk q.qid (q.items ++ ps))) := by
  have h1 : ∀ (st : State α) (p : α) (i : ℕ),
      (broadcast st p)[i]? =
        st[i]?.map (fun q => ObserverQueue.mk q.qid (q.items ++ [p])) := by
    intro st p i
    simp [broadcast, put, List.getElem?_map]
  refine ⟨h1, ?_⟩
  intro st ps
  induction ps generalizing st with
  | nil =>
    intro i
    cases o : st[i]? with
    | none => simp [broadcastAll, o]
    | some q => simp [broadcastAll, o]
  | cons p ps ih =>
    intro i
    have hstep : broadcastAll st (p :: ps) = broadcastAll (broadcast st p) ps :=
      rfl
    rw [hstep, ih (broadcast st p) i, h1]
    cases o : st[i]? with
    | none => simp
    | some q => simp

/-- C10: `acquire` returns a fresh empty queue and appends it to the
registered set; `release` of that queue restores the set exactly (the
fresh identity guarantees `list.remove` hits the appended queue); and
`is_empty` is true exactly on the empty registered set. -/
theorem acquire_release_roundtrip {α : Type} [DecidableEq α]
    (st : State α) (fresh : ℕ)
    (h : fresh ∉ st.map ObserverQueue.qid) :
    (acquire st fresh).1.items = [] ∧
    (acquire st fresh).2 = st ++ [(acquire st fresh).1] ∧
    release (acquire st fresh).2 (acquire st fresh).1 = st ∧
    (∀ s : State α, is_empty s = true ↔ s = []) := by
  refine ⟨rfl, rfl, ?_, fun s => by simp [is_empty]⟩
  have hq : (⟨fresh, []⟩ : ObserverQueue α) ∉ st := by
    intro hmem
    exact h (by simpa using List.mem_map_of_mem ObserverQueue.qid hmem)
  show (st ++ [(⟨fresh, []⟩ : ObserverQueue α)]).erase ⟨fresh, []⟩ = st
  rw [List.erase_append_right _ hq]
  simp

/-- Witness for C10: acquire-then-release on a one-queue state restores
it. -/
theorem acquire_release_roundtrip_witness :
    release (acquire [(⟨0, [5]⟩ : ObserverQueue ℕ)] 1).2
      (acquire [(⟨0, [5]⟩ : ObserverQueue ℕ)] 1).1 = [⟨0, [5]⟩] :=
  (acquire_release_roundtrip [⟨0, [5]⟩] 1 (by decide)).2.2.1

end Atomic

namespace Web

/-- C5 counterexample: a tick whose air sensor read raises while the water
sensor read succeeds publishes nothing at all — `measureTick` yields
`none`, not a payload containing the succeeding sensor's reading. -/
theorem measureTick_failing_sensor_counterexample :
    measureTick (Except.error ()) (Except.ok 20) none none = none := rfl

/-- C5 amended: all sensor reads of a tick run inside the loop body's
single `try:`; the tick publishes no payload at all exactly when some
configured sensor read fails (the exception is logged and the loop
continues with the next tick). -/
theorem measureTick_aborts_on_any_failure (air water : Except Unit ℚ)
    (humidity : Option (Except Unit ℚ))
    (details : Option Development.FilmDetails) :
    measureTick air water humidity details = none ↔
      air = Except.error () ∨ water = Except.error () ∨
        humidity = some (Except.error ()) := by
  cases air with
  | error u =>
    cases u
    exact iff_of_true rfl (Or.inl rfl)
  | ok a =>
    cases water with
    | error u =>
      cases u
      exact iff_of_true rfl (Or.inr (Or.inl rfl))
    | ok w =>
      rcases humidity with _ | he
      · exact iff_of_false (fun hc => Option.noConfusion hc) (by simp)
      · rcases he with u | hv
        · cases u
          exact iff_of_true rfl (Or.inr (Or.inr rfl))
        · exact iff_of_false (fun hc => Option.noConfusion hc) (by simp)

/-- C6: when the water sensor produced a reading and a film is selected,
an evaluation that fails with the `TooCold` (resp. `TooHot`) user
condition still publishes a payload, reporting duration `-1` with the
condition-specific annotation `"Too cold"` (resp. `"Too hot"`); any other
evaluation failure (the `IndexError` of an empty table) reports `-1` with
the generic `"Internal error"` annotation, and the tick continues
(a payload is published) in all three cases. -/
theorem measureTick_reports_evaluation_failures (a w : ℚ)
    (humidity : Option (Except Unit ℚ)) (h : Option ℚ)
    (fd : Development.FilmDetails)
    (e : runHumidity humidity = Except.ok h) :
    (Development.evaluate fd.points w =
        Except.error Development.EvalErr.tooCold →
      measureTick (Except.ok a) (Except.ok w) humidity (some fd) =
        some ⟨[("air".toList, a), ("water".toList, w)], h,
          some ⟨-1, fd.brand, fd.film_type, fd.dx_number,
            some ("Too cold".toList)⟩⟩) ∧
    (Development.evaluate fd.points w =
        Except.error Development.EvalErr.tooHot →
      measureTick (Except.ok a) (Except.ok w) humidity (some fd) =
        some ⟨[("air".toList, a), ("water".toList, w)], h,
          some ⟨-1, fd.brand, fd.film_type, fd.dx_number,
            some ("Too hot".toList)⟩⟩) ∧
    (Development.evaluate fd.points w =
        Except.error Development.EvalErr.emptyTable →
      measureTick (Except.ok a) (Except.ok w) humidity (some fd) =
        some ⟨[("air".toList, a), ("water".toList, w)], h,
          some ⟨-1, fd.brand, fd.film_type, fd.dx_number,
            some ("Internal error".toList)⟩⟩) := by
  have hm : measureTick (Except.ok a) (Except.ok w) humidity (some fd) =
      some ⟨[("air".toList, a), ("water".toList, w)], h,
        some (devEntry fd w)⟩ := by
    unfold measureTick
    rw [e]
    rfl
  refine ⟨?_, ?_, ?_⟩ <;> intro hev <;> rw [hm] <;>
    simp [devEntry, Development.FilmDetails.development_time, hev,
      toDevResult]

/-- Witness for C6: on the example film, water at `10` is too cold, at
`30` too hot, and an empty table trips the generic internal error; each
tick still publishes its payload. -/
theorem measureTick_reports_evaluation_failures_witness :
    (measureTick (Except.ok 21) (Except.ok 10) none
        (some Development.sampleFilm) =
      some ⟨[("air".toList, 21), ("water".toList, 10)], none,
        some ⟨-1, Development.sampleFilm.brand,
          Development.sampleFilm.film_type,
          Development.sampleFilm.dx_number, some ("Too cold".toList)⟩⟩) ∧
    (measureTick (Except.ok 21) (Except.ok 30) none
        (some Development.sampleFilm) =
      some ⟨[("air".toList, 21), ("water".toList, 30)], none,
        some ⟨-1, Development.sampleFilm.brand,
          Development.sampleFilm.film_type,
          Development.sampleFilm.dx_number, some ("Too hot".toList)⟩⟩) ∧
    (measureTick (Except.ok 21) (Except.ok 20) none
        (some ⟨"B".toList, "T".toList, "0175349".toList, []⟩) =
      some ⟨[("air".toList, 21), ("water".toList, 20)], none,
        some ⟨-1, "B".toList, "T".toList, "0175349".toList,
          some ("Internal error".toList)⟩⟩) := by
  refine ⟨?_, ?_, ?_⟩
  · exact (measureTick_reports_evaluation_failures 21 10 none none
      Development.sampleFilm rfl).1 (by decide)
  · exact (measureTick_reports_evaluation_failures 21 30 none none
      Development.sampleFilm rfl).2.1 (by decide)
  · exact (measureTick_reports_evaluation_failures 21 20 none none
      ⟨"B".toList, "T".toList, "0175349".toList, []⟩ rfl).2.2 (by decide)

end Web

namespace Build

/-- Running `mapM` in the `Except` monad fails with the error of the first failing
element when every earlier element succeeds. -/
theorem mapM_error_at_first_failure {α β : Type} (f : α → Except BuildError β)
    (pre : List α) (t : α) (post : List α) (e : BuildError)
    (k : ∀ u ∈ pre, ∃ v, f u = Except.ok v) (ht : f t = Except.error e) :
    (pre ++ t :: post).mapM f = Except.error e := by
  induction pre with
  | nil =>
    rw [List.nil_append, List.mapM_cons, ht]
    rfl
  | cons u pre' ih =>
    obtain ⟨v, hv⟩ := k u (by simp)
    have hrest := ih fun x hx => k x (List.mem_cons_of_mem _ hx)
    rw [List.cons_append, List.mapM_cons, hv]
    show Except.bind ((pre' ++ t :: post).mapM f)
      (fun bs => pure (v :: bs)) = Except.error e
    rw [hrest]
    rfl

/-- C9: building the calibration tables fails, producing no table at all,
(i) with `MalformedHeader` when the header row's first cell is not
literally `"Chart Letter"`, (ii) with `MalformedTemperature` capturing the
offending text when a temperature label does not match the
signed-decimal-plus-`°C` pattern (assuming the labels before it parse),
and (iii) with `UnknownChartLetter` when a product row's letter code has
no chart entry (assuming the rows before it resolve); the last two
conjuncts show any such failure propagates through
`DevelopmentTime.make`, so no `DevelopmentTime` value is produced. -/
theorem build_fails_on_malformed_input :
    (∀ (first : PyStr) (rest : List PyStr) (body : List (List PyStr)),
      first ≠ "Chart Letter".toList →
      read_chart_letter ((first :: rest) :: body) =
        Except.error BuildError.malformedHeader) ∧
    (∀ (pre : List PyStr) (t : PyStr) (post : List PyStr)
        (body : List (List PyStr)),
      (∀ u ∈ pre, ∃ v, parse_temp u = Except.ok v) →
      matchesTemp t = false →
      read_chart_letter
          (("Chart Letter".toList :: (pre ++ t :: post)) :: body) =
        Except.error (BuildError.malformedTemperature t)) ∧
    (∀ (preRows : List FilmRow) (row : FilmRow) (postRows : List FilmRow)
        (dm : DurationsMap),
      (∀ r ∈ preRows, ∃ td, dictGet dm r.chart_letter = some td) →
      dictGet dm row.chart_letter = none →
      read_films (preRows ++ row :: postRows) dm =
        Except.error (BuildError.unknownChartLetter row.chart_letter)) ∧
    (∀ (filmRows : List FilmRow) (chartRows : List (List PyStr))
        (e : BuildError),
      read_chart_letter chartRows = Except.error e →
      DevelopmentTime.make filmRows chartRows = Except.error e) ∧
    (∀ (filmRows : List FilmRow) (chartRows : List (List PyStr))
        (dm : DurationsMap) (e : BuildError),
      read_chart_letter chartRows = Except.ok dm →
      read_films filmRows dm = Except.error e →
      DevelopmentTime.make filmRows chartRows = Except.error e) := by
  refine ⟨?_, ?_, ?_, ?_, ?_⟩
  · intro first rest body hne
    have hhd : parseTemperaturesHeader (first :: rest) =
        Except.error BuildError.malformedHeader := by
      show (if first = "Chart Letter".toList then rest.mapM parse_temp
        else Except.error BuildError.malformedHeader) =
        Except.error BuildError.malformedHeader
      rw [if_neg hne]
    show Except.bind (parseTemperaturesHeader (first :: rest)) _ =
      Except.error BuildError.malformedHeader
    rw [hhd]
    rfl
  · intro pre t post body hok hm
    have hpt : parse_temp t =
        Except.error (BuildError.malformedTemperature t) := by
      unfold parse_temp
      rw [if_neg (by simp [hm])]
    have hmap := mapM_error_at_first_failure parse_temp pre t post _ hok hpt
    have hhd : parseTemperaturesHeader
        ("Chart Letter".toList :: (pre ++ t :: post)) =
        (pre ++ t :: post).mapM parse_temp := rfl
    show Except.bind (parseTemperaturesHeader
        ("Chart Letter".toList :: (pre ++ t :: post))) _ =
      Except.error (BuildError.malformedTemperature t)
    rw [hhd, hmap]
    rfl
  · intro preRows row postRows dm hok hrow
    refine mapM_error_at_first_failure _ preRows row postRows _ ?_ ?_
    · intro r hr
      obtain ⟨td, htd⟩ := hok r hr
      refine ⟨⟨r.brand, r.film_type, r.dx_number, List.zip td.1 td.2⟩, ?_⟩
      show (match dictGet dm r.chart_letter with
        | some td => Except.ok (⟨r.brand, r.film_type, r.dx_number,
            List.zip td.1 td.2⟩ : Development.FilmDetails)
        | none =>
          Except.error (BuildError.unknownChartLetter r.chart_letter))
        = Except.ok (⟨r.brand, r.film_type, r.dx_number,
            List.zip td.1 td.2⟩ : Development.FilmDetails)
      rw [htd]
    · show (match dictGet dm row.chart_letter with
        | some td => Except.ok (⟨row.brand, row.film_type, row.dx_number,
            List.zip td.1 td.2⟩ : Development.FilmDetails)
        | none =>
          Except.error (BuildError.unknownChartLetter row.chart_letter))
        = Except.error (BuildError.unknownChartLetter row.chart_letter)
      rw [hrow]
  · intro filmRows chartRows e he
    show Except.bind (read_chart_letter chartRows) _ = Except.error e
    rw [he]
    rfl
  · intro filmRows chartRows dm e hokc he
    show Except.bind (read_chart_letter chartRows) _ = Except.error e
    rw [hokc]
    show Except.bind (read_films filmRows dm) _ = Except.error e
    rw [he]
    rfl

/-- Witness for C9: a wrong sentinel, a label `"20x"`, and a letter with
no chart entry each abort a concrete build with the matching error. -/
theorem build_fails_on_malformed_input_witness :
    read_chart_letter [["X".toList]] =
      Except.error BuildError.malformedHeader ∧
    read_chart_letter [["Chart Letter".toList, "20x".toList]] =
      Except.error (BuildError.malformedTemperature ("20x".toList)) ∧
    read_films [⟨"B".toList, "T".toList, "0175349".toList, "Z".toList⟩] [] =
      Except.error (BuildError.unknownChartLetter ("Z".toList)) ∧
    DevelopmentTime.make [] [["X".toList]] =
      Except.error BuildError.malformedHeader ∧
    DevelopmentTime.make
        [⟨"B".toList, "T".toList, "0175349".toList, "Z".toList⟩] [] =
      Except.error (BuildError.unknownChartLetter ("Z".toList)) := by
  refine ⟨?_, ?_, ?_, ?_, ?_⟩
  · exact build_fails_on_malformed_input.1 ("X".toList) [] [] (by decide)
  · exact build_fails_on_malformed_input.2.1 [] ("20x".toList) [] []
      (by simp) (by decide)
  · exact build_fails_on_malformed_input.2.2.1 []
      ⟨"B".toList, "T".toList, "0175349".toList, "Z".toList⟩ [] []
      (by simp) rfl
  · exact build_fails_on_malformed_input.2.2.2.1 [] [["X".toList]] _
      (by decide)
  · exact build_fails_on_malformed_input.2.2.2.2
      [⟨"B".toList, "T".toList, "0175349".toList, "Z".toList⟩] [] [] _
      rfl (by decide)

end Build

end ThermometerFilm
